import Mathlib

/-!
Verification of the lincxrpc RPC framework against its specification.

The development shallowly embeds the Go sources:

* the wire protocol (package `protocol`: `EncodeMessage`, `DecodeMessage`,
  `Message.Clone`),
* the server runtime (package `server`: `Register`, `suitableMethods`,
  `process`, `errorResponse`, `close`),
* the single-provider client demultiplexer (`simpleClient.input`),
* the service-governance client (`sgClient.Call` with its fail modes).

Byte strings are modelled as `List Nat` with values below 256, machine
integers as `Nat` with explicit `% 2^32` where Go truncates, readers as a
remaining byte list, and heap references (for the `Clone` aliasing claims)
as indices into an explicit header store.
-/

namespace LincxRpc

/-! ## Bytes and big-endian 32-bit integers -/

/-- Big-endian 4-byte encoding, as written by Go
`binary.BigEndian.PutUint32(b, uint32(n))`: the conversion to `uint32`
truncates modulo `2^32`, each byte is a base-256 digit. -/
def be32 (n : Nat) : List Nat :=
  [n / 2 ^ 24 % 256, n / 2 ^ 16 % 256, n / 2 ^ 8 % 256, n % 256]

/-- Big-endian 32-bit read, as in Go `binary.BigEndian.Uint32`: reads the
first four bytes of the slice. -/
def beVal4 : List Nat → Nat
  | a :: b :: c :: d :: _ => ((a * 256 + b) * 256 + c) * 256 + d
  | _ => 0

/-! ## Message header (package protocol)

`Header` carries the fields of the Go `protocol.Header` struct.  String
fields are modelled as byte strings (`List Nat`); the dynamic-typed
`MetaData map[string]interface{}` is modelled as an association list of
byte-string keys to primitive values, the restriction to primitive values
being the one the round-trip claim makes. -/

inductive MessageType where
  | request
  | response
  | heartbeat
deriving DecidableEq

inductive StatusCode where
  | ok
  | statusError
deriving DecidableEq

/-- A primitive metadata value: integer, boolean, or byte string. -/
inductive MetaValue where
  | mint (n : Nat)
  | mbool (b : Bool)
  | mbytes (s : List Nat)
deriving DecidableEq

/-- The wire header, after Go `protocol.Header`. -/
structure Header where
  seq : Nat
  messageType : MessageType
  compressType : Nat
  serializeType : Nat
  statusCode : StatusCode
  serviceName : List Nat
  methodName : List Nat
  errorMsg : List Nat
  metaData : List (List Nat × MetaValue)
deriving DecidableEq

/-- The wire message, after Go `protocol.Message`: a header plus an opaque
body. -/
structure Message where
  header : Header
  data : List Nat
deriving DecidableEq

/-! ## Header codec

Modelled from the spec: the header bytes are produced by the MessagePack
codec (`codec.GetCodec(codec.MessagePackType)` from the external
`vmihailenco/msgpack` library, which is not part of this repository).  The
spec fixes only that the header uses a self-describing value encoding,
agreed on both sides, that round-trips headers whose metadata holds
primitive-typed values.  The model below is such an encoding: every
natural number is written as a self-delimiting unary run (`n` nonzero
bytes then a zero byte), byte strings and lists are length-prefixed, and
each metadata value carries a one-byte tag. -/

/-- Self-delimiting encoding of a natural number: `n` copies of byte 1,
then byte 0. -/
def natEnc (n : Nat) : List Nat :=
  List.replicate n 1 ++ [0]

/-- Decode a self-delimiting natural number, returning it with the
remaining bytes. -/
def natDec : List Nat → Option (Nat × List Nat)
  | [] => none
  | b :: rest =>
    if b = 0 then some (0, rest)
    else (natDec rest).map fun p => (p.1 + 1, p.2)

/-- Length-prefixed byte string. -/
def bytesEnc (s : List Nat) : List Nat :=
  natEnc s.length ++ s

/-- Decode a length-prefixed byte string. -/
def bytesDec (l : List Nat) : Option (List Nat × List Nat) :=
  match natDec l with
  | none => none
  | some (n, rest) =>
    if n ≤ rest.length then some (rest.take n, rest.drop n) else none

/-- Tagged encoding of a primitive metadata value. -/
def metaValueEnc : MetaValue → List Nat
  | .mint n => 0 :: natEnc n
  | .mbool b => 1 :: [if b then 1 else 0]
  | .mbytes s => 2 :: bytesEnc s

/-- Decode a tagged primitive metadata value. -/
def metaValueDec : List Nat → Option (MetaValue × List Nat)
  | 0 :: rest => (natDec rest).map fun p => (.mint p.1, p.2)
  | 1 :: b :: rest => some (.mbool (b ≠ 0), rest)
  | 2 :: rest => (bytesDec rest).map fun p => (.mbytes p.1, p.2)
  | _ => none

/-- Encoding of the metadata entries, in order. -/
def metaListEnc (l : List (List Nat × MetaValue)) : List Nat :=
  natEnc l.length ++ (l.map fun kv => bytesEnc kv.1 ++ metaValueEnc kv.2).flatten

/-- Decode `n` metadata entries. -/
def metaEntriesDec : Nat → List Nat → Option (List (List Nat × MetaValue) × List Nat)
  | 0, l => some ([], l)
  | n + 1, l =>
    match bytesDec l with
    | none => none
    | some (k, rest) =>
      match metaValueDec rest with
      | none => none
      | some (v, rest2) =>
        (metaEntriesDec n rest2).map fun p => ((k, v) :: p.1, p.2)

/-- Decode the metadata association list. -/
def metaListDec (l : List Nat) : Option (List (List Nat × MetaValue) × List Nat) :=
  match natDec l with
  | none => none
  | some (n, rest) => metaEntriesDec n rest

/-- Numeric tag of a message type, as in the Go `iota` constants. -/
def messageTypeTag : MessageType → Nat
  | .request => 0
  | .response => 1
  | .heartbeat => 2

/-- Message type from its tag. -/
def messageTypeOfTag : Nat → Option MessageType
  | 0 => some .request
  | 1 => some .response
  | 2 => some .heartbeat
  | _ => none

/-- Numeric tag of a status code, as in the Go `iota` constants. -/
def statusCodeTag : StatusCode → Nat
  | .ok => 0
  | .statusError => 1

/-- Status code from its tag. -/
def statusCodeOfTag : Nat → Option StatusCode
  | 0 => some .ok
  | 1 => some .statusError
  | _ => none

/-- Header encoding: the fields in declaration order. -/
def headerEnc (h : Header) : List Nat :=
  natEnc h.seq ++ natEnc (messageTypeTag h.messageType) ++
    natEnc h.compressType ++ natEnc h.serializeType ++
    natEnc (statusCodeTag h.statusCode) ++
    bytesEnc h.serviceName ++ bytesEnc h.methodName ++ bytesEnc h.errorMsg ++
    metaListEnc h.metaData

/-- Header decoding with remaining bytes. -/
def headerDecAux (l : List Nat) : Option (Header × List Nat) :=
  match natDec l with
  | none => none
  | some (seq, l1) =>
    match natDec l1 with
    | none => none
    | some (mt, l2) =>
      match messageTypeOfTag mt with
      | none => none
      | some messageType =>
        match natDec l2 with
        | none => none
        | some (compressType, l3) =>
          match natDec l3 with
          | none => none
          | some (serializeType, l4) =>
            match natDec l4 with
            | none => none
            | some (sc, l5) =>
              match statusCodeOfTag sc with
              | none => none
              | some statusCode =>
                match bytesDec l5 with
                | none => none
                | some (serviceName, l6) =>
                  match bytesDec l6 with
                  | none => none
                  | some (methodName, l7) =>
                    match bytesDec l7 with
                    | none => none
                    | some (errorMsg, l8) =>
                      match metaListDec l8 with
                      | none => none
                      | some (metaData, l9) =>
                        some (⟨seq, messageType, compressType, serializeType,
                          statusCode, serviceName, methodName, errorMsg,
                          metaData⟩, l9)

/-- The header codec as `DecodeMessage` uses it: decode the header byte
slice, ignoring nothing of the envelope (the slice boundaries come from
the frame). -/
def headerDec (l : List Nat) : Option Header :=
  (headerDecAux l).map fun p => p.1

/-! ## Wire framing (package protocol, `RPCProtocol`) -/

/-- The magic byte pair `var MAGIC = []byte{0xab, 0xba}`. -/
def MAGIC : List Nat := [0xab, 0xba]

/-- The protocol version byte `const version = 0x00`. -/
def version : Nat := 0x00

/-- Go `checkMagic`: at least two bytes, equal to the magic pair. -/
def checkMagic : List Nat → Bool
  | b0 :: b1 :: _ => decide (b0 = 0xab) && decide (b1 = 0xba)
  | _ => false

/-- Go `io.ReadFull(r, buf)` with `len(buf) = n` on a reader holding the
byte list `s`: succeeds returning the `n` bytes read and the remaining
stream, errors (`io.EOF` or `io.ErrUnexpectedEOF`) when the stream is
shorter than `n`. -/
def readFull (n : Nat) (s : List Nat) : Option (List Nat × List Nat) :=
  if n ≤ s.length then some (s.take n, s.drop n) else none

/-- Go `copyFullWithOffset(dst, src, &start)`: overwrite
`dst[start : start+len(src)]` with `src` and advance the offset.  In
`EncodeMessage` the destination is always long enough, so the overwrite
is total. -/
def copyFullWithOffset (dst src : List Nat) (start : Nat) : List Nat × Nat :=
  (dst.take start ++ src ++ dst.drop (start + src.length), start + src.length)

/-- Go `RPCProtocol.EncodeMessage`, transcribed step by step: allocate a
zero buffer of `totalLen + 7` bytes and fill it with five
`copyFullWithOffset` calls. -/
def encodeMessage (m : Message) : List Nat :=
  let first3bytes := [MAGIC[0]!, MAGIC[1]!, version]
  let headerBytes := headerEnc m.header
  let totalLen := 4 + headerBytes.length + m.data.length
  let totalLenBytes := be32 totalLen
  let data0 := List.replicate (totalLen + 7) 0
  let s0 := 0
  let r1 := copyFullWithOffset data0 first3bytes s0
  let r2 := copyFullWithOffset r1.1 totalLenBytes r1.2
  let headerLenBytes := be32 headerBytes.length
  let r3 := copyFullWithOffset r2.1 headerLenBytes r2.2
  let r4 := copyFullWithOffset r3.1 headerBytes r3.2
  let r5 := copyFullWithOffset r4.1 m.data r4.2
  r5.1

/-- The reason `DecodeMessage` fails. -/
inductive DecodeErr where
  | shortRead
  | wrongProtocol
  | invalidTotalLength
  | headerCodec
deriving DecidableEq

/-- Outcome of `DecodeMessage`: a message, an error return, or a runtime
panic (Go slice bounds violation). -/
inductive DecodeResult where
  | ok (m : Message)
  | err (e : DecodeErr)
  | panic
deriving DecidableEq

/-- Go `RPCProtocol.DecodeMessage`, transcribed step by step.  The final
slicing `data[4 : headerLen+4]` panics in Go when `headerLen + 4`
exceeds `len(data) = totalLen`; the model makes that outcome explicit. -/
def decodeMessage (s : List Nat) : DecodeResult :=
  match readFull 3 s with
  | none => .err .shortRead
  | some (first3bytes, s1) =>
    if checkMagic (first3bytes.take 2) then
      match readFull 4 s1 with
      | none => .err .shortRead
      | some (totalLenBytes, s2) =>
        let totalLen := beVal4 totalLenBytes
        if totalLen < 4 then .err .invalidTotalLength
        else
          match readFull totalLen s2 with
          | none => .err .shortRead
          | some (data, _) =>
            let headerLen := beVal4 (data.take 4)
            if headerLen + 4 ≤ data.length then
              match headerDec ((data.drop 4).take headerLen) with
              | none => .err .headerCodec
              | some header => .ok ⟨header, data.drop (headerLen + 4)⟩
            else .panic
    else .err .wrongProtocol

/-- Flat characterization of `DecodeMessage`, following the wording of the
spec: an error return exactly on magic mismatch, `totalLen < 4`, a short
read at any of the three reads, or header-codec rejection; a panic when
the embedded header length exceeds `totalLen - 4`; a message otherwise. -/
def decodeSpec (s : List Nat) : DecodeResult :=
  if s.length < 3 then .err .shortRead
  else if ¬(s.take 2 = MAGIC) then .err .wrongProtocol
  else if s.length < 7 then .err .shortRead
  else
    let totalLen := beVal4 ((s.drop 3).take 4)
    if totalLen < 4 then .err .invalidTotalLength
    else if s.length < 7 + totalLen then .err .shortRead
    else
      let data := (s.drop 7).take totalLen
      let headerLen := beVal4 (data.take 4)
      if totalLen < headerLen + 4 then .panic
      else
        match headerDec ((data.drop 4).take headerLen) with
        | none => .err .headerCodec
        | some header => .ok ⟨header, data.drop (headerLen + 4)⟩

/-! ## Service registration (package server: `Register`, `suitableMethods`)

Reflection data is embedded as explicit descriptors: a `reflect.Type` is
either a pointer type or a named base type carrying its name, package
path, and whether it implements `context.Context`; a `reflect.Method`
carries its name, package path (non-empty exactly for unexported
methods), the input types (receiver included, as in `Method.Type.In`) and
the output types. -/

inductive RType where
  | ptr (elem : RType)
  | base (name : String) (pkgPath : String) (implementsContext : Bool)
deriving DecidableEq

instance : Inhabited RType := ⟨.base "" "" false⟩

/-- Go `reflect.Type.Name()`: empty for unnamed (pointer) types. -/
def RType.rname : RType → String
  | .ptr _ => ""
  | .base n _ _ => n

/-- Go `reflect.Type.PkgPath()`: empty for pointer types and builtins. -/
def RType.rpkgPath : RType → String
  | .ptr _ => ""
  | .base _ p _ => p

/-- Go `t.Kind() == reflect.Ptr`. -/
def RType.isPtrKind : RType → Bool
  | .ptr _ => true
  | .base _ _ _ => false

/-- Go `t.Elem()` for a pointer type (identity otherwise, never used so). -/
def RType.relem : RType → RType
  | .ptr e => e
  | t => t

/-- Go `ctxType.Implements(typeOfContext)`: an attribute of the base
type; pointer types in this code base never implement `context.Context`. -/
def RType.rimplementsContext : RType → Bool
  | .ptr _ => false
  | .base _ _ ic => ic

/-- The `error` interface type, `typeOfError` in the source. -/
def typeOfError : RType := .base "error" "" false

/-- Go `isExported`: first rune of the name is upper case (an empty name
decodes to the replacement rune, which is not upper case). -/
def isExported (name : String) : Bool :=
  match name.toList with
  | [] => false
  | c :: _ => c.isUpper

/-- Go `isExportedOrBuiltinType`: strip pointers, then exported name or
empty package path. -/
def isExportedOrBuiltinType (t : RType) : Bool :=
  match t with
  | .ptr e => isExportedOrBuiltinType e
  | t => isExported t.rname || t.rpkgPath = ""

/-- A reflected method, after `reflect.Method`. -/
structure RMethod where
  mname : String
  pkgPath : String
  ins : List RType
  outs : List RType
deriving DecidableEq

/-- Go `suitableMethods`, transcribed check for check (the `reportErr`
logging changes no result and is dropped; the result map keyed by the
unique method names is kept as the list of retained methods in
declaration order). -/
def suitableMethods : List RMethod → List RMethod
  | [] => []
  | m :: rest =>
    if m.pkgPath ≠ "" then suitableMethods rest
    else if m.ins.length ≠ 4 then suitableMethods rest
    else if ¬(m.ins[1]!).rimplementsContext then suitableMethods rest
    else if ¬isExportedOrBuiltinType m.ins[2]! then suitableMethods rest
    else if ¬(m.ins[3]!).isPtrKind then suitableMethods rest
    else if ¬isExportedOrBuiltinType m.ins[3]! then suitableMethods rest
    else if m.outs.length ≠ 1 then suitableMethods rest
    else if m.outs[0]! ≠ typeOfError then suitableMethods rest
    else m :: suitableMethods rest

/-- The signature predicate as the claim states it: an exported method
`(Context, Arg, *Reply) → error` whose `Arg` and `Reply` element type are
exported or builtin. -/
def sigOk (m : RMethod) : Bool :=
  m.pkgPath = "" && m.ins.length = 4 && (m.ins[1]!).rimplementsContext &&
    isExportedOrBuiltinType m.ins[2]! && (m.ins[3]!).isPtrKind &&
    isExportedOrBuiltinType m.ins[3]! && m.outs.length = 1 &&
    m.outs[0]! = typeOfError

/-- A value passed to `Register`: its type name and the method sets of
the type and of its pointer type (the latter only feeds the hint in the
error message and changes no result). -/
structure GoType where
  tname : String
  methods : List RMethod
  ptrMethods : List RMethod
deriving DecidableEq

/-- A registered service: name and retained method descriptors. -/
structure RService where
  sname : String
  methods : List RMethod
deriving DecidableEq

/-- The server service map (`serviceMap sync.Map`), as an association
list in insertion order. -/
structure ServerState where
  serviceMap : List (String × RService)
deriving DecidableEq

/-- Go `SGServer.Register`, transcribed: build the retained method set;
fail when it is empty; `LoadOrStore` fails on a duplicate name and keeps
the first registration; otherwise store.  The returned `Bool` is true
exactly when `Register` returns a non-nil error. -/
def register (st : ServerState) (typ : GoType) : ServerState × Bool :=
  let methods := suitableMethods typ.methods
  if methods.length = 0 then (st, true)
  else if (st.serviceMap.lookup typ.tname).isSome then (st, true)
  else ({ serviceMap := st.serviceMap ++ [(typ.tname, ⟨typ.tname, methods⟩)] }, false)

/-- `Register` as the claim states it: record exactly the methods passing
the signature predicate; error on zero matches or duplicate name, leaving
the map unchanged. -/
def registerSpec (st : ServerState) (typ : GoType) : ServerState × Bool :=
  let methods := typ.methods.filter sigOk
  if methods.isEmpty then (st, true)
  else if (st.serviceMap.lookup typ.tname).isSome then (st, true)
  else ({ serviceMap := st.serviceMap ++ [(typ.tname, ⟨typ.tname, methods⟩)] }, false)

/-! ## Request dispatch (package server: `serveTransport`, `process`,
`errorResponse`)

The service map lookups, the body codec, and the reflective method
invocation are parametrized as a deterministic environment; `process`
transcribes the control flow of the source over it.  The type assertion
`srvInterface.(*service)` always succeeds (only `*service` values are
stored) and is modelled as such. -/

/-- The per-request environment `process` consults. -/
structure DispatchEnv where
  lookupService : List Nat → Option Unit
  lookupMethod : List Nat → List Nat → Option Unit
  decodeArg : Nat → List Nat → Option Unit
  invoke : List Nat → List Nat → List Nat → Except (List Nat) Unit
  encodeReply : List Nat → List Nat → List Nat → Except (List Nat) (List Nat)

/-- Go `errorResponse`: set the error string and the error status, empty
the body by reslicing to length zero. -/
def errorResponse (message : Message) (err : List Nat) : Message :=
  { message with
      header := { message.header with errorMsg := err, statusCode := .statusError },
      data := message.data.take 0 }

/-- Error string bytes for the literals used by `process`. -/
def strBytes (s : String) : List Nat := s.toList.map Char.toNat

/-- The response template built by `serveTransport`: the request is
cloned and its message type set to `Response` before `process` runs. -/
def responseTemplate (request : Message) : Message :=
  { request with header := { request.header with messageType := .response } }

/-- Go `SGServer.process`, transcribed: heartbeats short-circuit; then
service lookup, method lookup, body decode, invocation, reply encode,
each failure answered through `errorResponse`. -/
def process (env : DispatchEnv) (request response : Message) : Message :=
  if request.header.messageType = .heartbeat then
    { response with header := { response.header with messageType := .response } }
  else
    match env.lookupService request.header.serviceName with
    | none => errorResponse response (strBytes "can not find service")
    | some _ =>
      match env.lookupMethod request.header.serviceName request.header.methodName with
      | none => errorResponse response (strBytes "can not find method")
      | some _ =>
        match env.decodeArg request.header.serializeType request.data with
        | none => errorResponse response (strBytes "decode arg error")
        | some _ =>
          match env.invoke request.header.serviceName request.header.methodName request.data with
          | .error e => errorResponse response e
          | .ok _ =>
            match env.encodeReply request.header.serviceName request.header.methodName request.data with
            | .error e => errorResponse response e
            | .ok responseData =>
              { response with
                  header := { response.header with statusCode := .ok },
                  data := responseData }

/-! ## Client response demultiplexing (`simpleClient.input`) -/

/-- An in-flight `Call`: its target `ServiceMethod` string (as bytes) and
an identifier standing for the Call object. -/
structure PCall where
  serviceMethod : List Nat
  callId : Nat
deriving DecidableEq

/-- What one `input` iteration did with a decoded response. -/
inductive InputEvent where
  | delivered (c : PCall)
  | dropped
  | fatal
  | skippedHeartbeat
deriving DecidableEq

/-- One iteration of `simpleClient.input` on a decoded response, over the
pending-call table keyed by `Seq`: missing seq drops the response;
heartbeat responses touch no call; a target mismatch is `log.Fatalf`;
otherwise the call is removed from the table and completed (with a
service error or the decoded body — either way it is delivered). -/
def inputStep (pending : List (Nat × PCall)) (resp : Message) :
    List (Nat × PCall) × InputEvent :=
  match pending.lookup resp.header.seq with
  | none => (pending, .dropped)
  | some call =>
    if resp.header.messageType ≠ .heartbeat then
      if resp.header.serviceName ++ [46] ++ resp.header.methodName ≠ call.serviceMethod then
        (pending, .fatal)
      else
        (pending.filter (fun kv => kv.1 ≠ resp.header.seq), .delivered call)
    else (pending, .skippedHeartbeat)

/-- The receive loop over a list of decoded responses, collecting the
(call, response) deliveries; `log.Fatalf` stops the process. -/
def runInput (pending : List (Nat × PCall)) : List Message → List (PCall × Message)
  | [] => []
  | r :: rs =>
    match inputStep pending r with
    | (p2, .delivered c) => (c, r) :: runInput p2 rs
    | (_, .fatal) => []
    | (p2, _) => runInput p2 rs

/-! ## Service-governance client (`sgClient.Call`)

The collaborators of `sgClient.Call` are parametrized as a deterministic
environment: `selectClient` indexed by how many times it has been called
(the `FailOver` loop re-selects), `dial` for the `getclient` calls inside
the `FailRetry` loop, and `callResult` for the wrapped
`rpcClient.Call`, indexed by how many call attempts were made.  Clients
are identified by numbers; breaker notifications and `removeClient`
mutate no state that feeds back into the return value and are elided. -/

/-- Client-side error kinds; `service` is the `ServiceError` string type,
everything else fails the `err.(ServiceError)` type assertion. -/
inductive RpcErr where
  | service (msg : List Nat)
  | transport (msg : List Nat)
  | emptyProviderList
  | breakerOpen
  | shutdown
deriving DecidableEq

/-- The `FailMode` constants, in `iota` order. -/
inductive FailMode where
  | failFast
  | failOver
  | failRetry
  | failSafe
deriving DecidableEq

/-- The collaborators consulted during one `sgClient.Call`. -/
structure SGEnv where
  selectClient : Nat → Option Nat × Option RpcErr
  dial : Nat → Option Nat × Option RpcErr
  callResult : Nat → Option RpcErr

/-- Outcome of `sgClient.Call`: a returned error (or nil) together with
the number of call attempts made on pooled clients, or a runtime panic
from invoking a method on a nil `RPCClient` interface. -/
inductive SGOutcome where
  | ret (e : Option RpcErr) (attempts : Nat)
  | npePanic (attempts : Nat)
deriving DecidableEq

/-- The `FailRetry` loop of `sgClient.Call`: while retries remain, a
non-nil client gets one call whose result is returned immediately; a nil
client is re-dialled (`removeClient` then `getclient`), updating
`connectErr` only.  After the loop `err` falls back to `connectErr` when
nil. -/
def failRetryLoop (env : SGEnv) : Nat → Option Nat → Option RpcErr → Option RpcErr →
    Nat → Nat → SGOutcome
  | 0, _, err, connectErr, attempts, _ =>
    .ret (if err = none then connectErr else err) attempts
  | fuel + 1, client, err, connectErr, attempts, dials =>
    match client with
    | some _ => .ret (env.callResult attempts) (attempts + 1)
    | none =>
      let d := env.dial dials
      failRetryLoop env fuel d.1 err d.2 attempts (dials + 1)

/-- The `FailOver` loop of `sgClient.Call`: as `FailRetry`, but a nil
client triggers a fresh `selectClient` instead of a re-dial. -/
def failOverLoop (env : SGEnv) : Nat → Option Nat → Option RpcErr → Option RpcErr →
    Nat → Nat → SGOutcome
  | 0, _, err, connectErr, attempts, _ =>
    .ret (if err = none then connectErr else err) attempts
  | fuel + 1, client, err, connectErr, attempts, selects =>
    match client with
    | some _ => .ret (env.callResult attempts) (attempts + 1)
    | none =>
      let s := env.selectClient selects
      failOverLoop env fuel s.1 err s.2 attempts (selects + 1)

/-- Go `sgClient.Call`, transcribed: one initial `selectClient`; a
selection error returns immediately only under `FailFast`; `FailRetry`
and `FailOver` run their loops; the default branch (reached by `FailFast`
without a selection error and by `FailSafe` always) invokes
`rpcClient.Call` — a nil interface there panics — and `FailSafe`
replaces the error with nil. -/
def sgCall (env : SGEnv) (mode : FailMode) (retries : Nat) : SGOutcome :=
  let sel := env.selectClient 0
  let client := sel.1
  let err := sel.2
  if err ≠ none ∧ mode = .failFast then .ret err 0
  else
    match mode with
    | .failRetry => failRetryLoop env retries client err none 0 0
    | .failOver => failOverLoop env retries client err none 0 1
    | _ =>
      match client with
      | none => .npePanic 0
      | some _ =>
        let e := env.callResult 0
        let e2 := if mode = .failSafe then none else e
        .ret e2 1

/-- An environment in which the initial selection yields a live pooled
client, the first call attempt fails with a transport error, and every
later attempt would succeed. -/
def retryEnvExample : SGEnv where
  selectClient := fun _ => (some 0, none)
  dial := fun _ => (none, none)
  callResult := fun k => if k = 0 then some (.transport [120]) else none

/-- An environment in which the filter chain leaves no candidate: every
selection returns the empty-provider-list error, and dialling the
zero-value provider fails. -/
def emptyEnvExample : SGEnv where
  selectClient := fun _ => (none, some .emptyProviderList)
  dial := fun _ => (none, some (.transport []))
  callResult := fun _ => none

/-! ## Graceful shutdown (`SGServer.close`)

The spin loop of `close` is, verbatim:

  for \x7b
      if s.requestInProcess <= 0 \x7b break \x7d
      select \x7b case <-ticker.C: break \x7d
  \x7d

The `break` inside `select` leaves the `select` statement only, so each
iteration re-reads the counter after one tick of the
`ShutDownWait`-period ticker.  The model observes the (concurrently
mutated) `requestInProcess` counter as a function of the iteration index
and bounds the loop by explicit fuel: `closeLoopExits obs i fuel` is true
exactly when the loop, started at iteration `i`, breaks within `fuel`
iterations. -/
def closeLoopExits (obs : Nat → Int) (i : Nat) : Nat → Bool
  | 0 => false
  | fuel + 1 => if obs i ≤ 0 then true else closeLoopExits obs (i + 1) fuel

/-! ## Header aliasing (`Message.Clone`)

`Clone` copies the `*Header` pointer and the `Data` slice header; the
heap of header objects is explicit here, a message naming its header by
reference. -/

/-- A message whose header is a reference into the header store. -/
structure HMessage where
  headerRef : Nat
  data : List Nat
deriving DecidableEq

/-- Go `Message.Clone`: the new message carries the same header pointer
and the same data slice. -/
def hclone (m : HMessage) : HMessage :=
  { headerRef := m.headerRef, data := m.data }

/-- Read the header of a message through the store. -/
def readHeader (heap : Nat → Header) (m : HMessage) : Header :=
  heap m.headerRef

/-- Assign to a header field of a message (for example
`response.MessageType = ...`): updates the shared header object. -/
def writeHeaderField (heap : Nat → Header) (m : HMessage) (f : Header → Header) :
    Nat → Header :=
  fun i => if i = m.headerRef then f (heap i) else heap i

/-- The header mutations `serveTransport` and `errorResponse` perform on
the response: message type to `Response`, then error string and error
status. -/
def responseMutations (heap : Nat → Header) (resp : HMessage) (err : List Nat) :
    Nat → Header :=
  writeHeaderField
    (writeHeaderField
      (writeHeaderField heap resp fun h => { h with messageType := .response })
      resp fun h => { h with errorMsg := err })
    resp fun h => { h with statusCode := .statusError }

/-! ## Lemmas: header codec round-trip -/

theorem natDec_natEnc (n : Nat) (r : List Nat) :
    natDec (natEnc n ++ r) = some (n, r) := by
  induction n with
  | zero => simp [natEnc, natDec]
  | succ n ih =>
    simp only [natEnc, List.replicate_succ, List.cons_append, natDec,
      List.append_assoc, List.nil_append] at *
    simp [ih]

theorem bytesDec_bytesEnc (s r : List Nat) :
    bytesDec (bytesEnc s ++ r) = some (s, r) := by
  simp only [bytesEnc, List.append_assoc, bytesDec, natDec_natEnc]
  simp [List.take_left' rfl, List.drop_left' rfl]

theorem metaValueDec_metaValueEnc (v : MetaValue) (r : List Nat) :
    metaValueDec (metaValueEnc v ++ r) = some (v, r) := by
  cases v with
  | mint n => simp [metaValueEnc, metaValueDec, natDec_natEnc]
  | mbool b => cases b <;> simp [metaValueEnc, metaValueDec]
  | mbytes s => simp [metaValueEnc, metaValueDec, bytesDec_bytesEnc]

theorem metaEntriesDec_enc (l : List (List Nat × MetaValue)) (r : List Nat) :
    metaEntriesDec l.length
      ((l.map fun kv => bytesEnc kv.1 ++ metaValueEnc kv.2).flatten ++ r) =
      some (l, r) := by
  induction l with
  | nil => simp [metaEntriesDec]
  | cons kv rest ih =>
    simp only [List.map_cons, List.flatten_cons, List.length_cons,
      List.append_assoc, metaEntriesDec, bytesDec_bytesEnc,
      metaValueDec_metaValueEnc]
    simp only [← List.append_assoc] at ih ⊢
    simp [ih]

theorem metaListDec_metaListEnc (l : List (List Nat × MetaValue)) (r : List Nat) :
    metaListDec (metaListEnc l ++ r) = some (l, r) := by
  simp only [metaListEnc, List.append_assoc, metaListDec, natDec_natEnc]
  exact metaEntriesDec_enc l r

theorem messageTypeOfTag_tag (t : MessageType) :
    messageTypeOfTag (messageTypeTag t) = some t := by
  cases t <;> rfl

theorem statusCodeOfTag_tag (c : StatusCode) :
    statusCodeOfTag (statusCodeTag c) = some c := by
  cases c <;> rfl

theorem headerDecAux_headerEnc (h : Header) (r : List Nat) :
    headerDecAux (headerEnc h ++ r) = some (h, r) := by
  simp only [headerEnc, List.append_assoc, headerDecAux, natDec_natEnc,
    messageTypeOfTag_tag, statusCodeOfTag_tag, bytesDec_bytesEnc,
    metaListDec_metaListEnc]

theorem headerDec_headerEnc (h : Header) :
    headerDec (headerEnc h) = some h := by
  have := headerDecAux_headerEnc h []
  simp only [List.append_nil] at this
  simp [headerDec, this]

/-! ## Lemmas: framing -/

theorem be32_length (n : Nat) : (be32 n).length = 4 := rfl

theorem beVal4_be32_append (n : Nat) (r : List Nat) :
    beVal4 (be32 n ++ r) = n % 2 ^ 32 := by
  simp only [be32, List.cons_append, List.nil_append, beVal4]
  omega

theorem beVal4_be32 (n : Nat) : beVal4 (be32 n) = n % 2 ^ 32 := by
  have := beVal4_be32_append n []
  simpa using this

/-- One exact-fit `copyFullWithOffset` step on a buffer whose prefix is
already filled and whose tail is still zeroed. -/
theorem copyFull_zero (pre src : List Nat) (k n : Nat) (h : pre.length = n) :
    copyFullWithOffset (pre ++ List.replicate k (0 : Nat)) src n =
      ((pre ++ src) ++ List.replicate (k - src.length) (0 : Nat), n + src.length) := by
  unfold copyFullWithOffset
  subst h
  rw [List.take_left, List.drop_append, List.drop_replicate, List.append_assoc]

/-- `EncodeMessage` in closed form: the magic pair, the version byte, the
big-endian total length, the big-endian header length, the header bytes,
the body. -/
theorem encodeMessage_eq (m : Message) :
    encodeMessage m =
      MAGIC ++ [version] ++
        be32 (4 + (headerEnc m.header).length + m.data.length) ++
        be32 (headerEnc m.header).length ++ headerEnc m.header ++ m.data := by
  show encodeMessage m =
    [0xab, 0xba, 0x00] ++ be32 (4 + (headerEnc m.header).length + m.data.length) ++
      be32 (headerEnc m.header).length ++ headerEnc m.header ++ m.data
  set hb := headerEnc m.header with hhb
  set body := m.data with hbody
  set T := 4 + hb.length + body.length with hT
  have hm3 : [MAGIC[0]!, MAGIC[1]!, version] = [0xab, 0xba, 0x00] := rfl
  have h0 : copyFullWithOffset (List.replicate (T + 7) (0 : Nat)) [0xab, 0xba, 0x00] 0
      = (([] ++ [0xab, 0xba, 0x00]) ++ List.replicate (T + 7 - 3) (0 : Nat), 0 + 3) :=
    copyFull_zero [] [0xab, 0xba, 0x00] (T + 7) 0 rfl
  have h1 : copyFullWithOffset (List.replicate (T + 7) (0 : Nat)) [0xab, 0xba, 0x00] 0
      = ([0xab, 0xba, 0x00] ++ List.replicate (T + 7 - 3) (0 : Nat), 3) := by
    rw [h0]; rfl
  have h2 : copyFullWithOffset
        ([0xab, 0xba, 0x00] ++ List.replicate (T + 7 - 3) (0 : Nat)) (be32 T) 3
      = (([0xab, 0xba, 0x00] ++ be32 T) ++ List.replicate (T + 7 - 3 - 4) (0 : Nat), 7) := by
    rw [copyFull_zero [0xab, 0xba, 0x00] (be32 T) (T + 7 - 3) 3 rfl, be32_length]
  have h3 : copyFullWithOffset
        (([0xab, 0xba, 0x00] ++ be32 T) ++ List.replicate (T + 7 - 3 - 4) (0 : Nat))
        (be32 hb.length) 7
      = ((([0xab, 0xba, 0x00] ++ be32 T) ++ be32 hb.length) ++
          List.replicate (T + 7 - 3 - 4 - 4) (0 : Nat), 11) := by
    rw [copyFull_zero ([0xab, 0xba, 0x00] ++ be32 T) (be32 hb.length) (T + 7 - 3 - 4) 7
      (by rw [List.length_append, be32_length]; rfl), be32_length]
  have h4 : copyFullWithOffset
        ((([0xab, 0xba, 0x00] ++ be32 T) ++ be32 hb.length) ++
          List.replicate (T + 7 - 3 - 4 - 4) (0 : Nat)) hb 11
      = (((([0xab, 0xba, 0x00] ++ be32 T) ++ be32 hb.length) ++ hb) ++
          List.replicate (T + 7 - 3 - 4 - 4 - hb.length) (0 : Nat), 11 + hb.length) := by
    rw [copyFull_zero (([0xab, 0xba, 0x00] ++ be32 T) ++ be32 hb.length) hb
      (T + 7 - 3 - 4 - 4) 11 (by simp [be32_length])]
  have h5 : copyFullWithOffset
        (((([0xab, 0xba, 0x00] ++ be32 T) ++ be32 hb.length) ++ hb) ++
          List.replicate (T + 7 - 3 - 4 - 4 - hb.length) (0 : Nat)) body (11 + hb.length)
      = ((((([0xab, 0xba, 0x00] ++ be32 T) ++ be32 hb.length) ++ hb) ++ body) ++
          List.replicate (T + 7 - 3 - 4 - 4 - hb.length - body.length) (0 : Nat),
          11 + hb.length + body.length) := by
    rw [copyFull_zero ((([0xab, 0xba, 0x00] ++ be32 T) ++ be32 hb.length) ++ hb) body
      (T + 7 - 3 - 4 - 4 - hb.length) (11 + hb.length) (by simp [be32_length]; omega)]
  have hz : T + 7 - 3 - 4 - 4 - hb.length - body.length = 0 := by omega
  simp only [encodeMessage]
  rw [← hhb, ← hbody, ← hT, hm3, h1, h2, h3, h4, h5, hz]
  simp [List.append_assoc]

/-- Length of a frame body read: taking `totalLen` bytes when at least
that many remain yields exactly `totalLen` bytes. -/
theorem length_take_of_le {l : List Nat} {n : Nat} (h : n ≤ l.length) :
    (l.take n).length = n := by
  simp only [List.length_take]
  omega

/-! ## Claim theorems: wire protocol -/

/-- C2: `EncodeMessage` returns exactly the concatenation of the magic
bytes `0xAB 0xBA`, the version byte `0x00`, the 4-byte big-endian
`totalLen`, the 4-byte big-endian `headerLen`, the header bytes and the
body, where `totalLen = 4 + headerLen + len(body)` counts everything
after the `totalLen` field, and the whole frame is `totalLen + 7` bytes
long. -/
theorem encode_message_layout (m : Message) :
    encodeMessage m =
      MAGIC ++ [version] ++
        be32 (4 + (headerEnc m.header).length + m.data.length) ++
        be32 (headerEnc m.header).length ++ headerEnc m.header ++ m.data ∧
    (encodeMessage m).length =
      (4 + (headerEnc m.header).length + m.data.length) + 7 := by
  refine ⟨encodeMessage_eq m, ?_⟩
  rw [encodeMessage_eq m]
  simp [MAGIC, version, be32]
  omega

/-- C1: feeding the byte stream produced by `EncodeMessage` to
`DecodeMessage` succeeds and yields a header equal to the original field
by field (`MetaData` value-equal) and a body byte-equal to the original,
for every frame whose total length fits the 32-bit length field (the
`uint32` conversion in the source truncates larger values). -/
theorem encode_decode_roundtrip (m : Message)
    (hsize : 4 + (headerEnc m.header).length + m.data.length < 2 ^ 32) :
    decodeMessage (encodeMessage m) = .ok ⟨m.header, m.data⟩ := by
  rw [encodeMessage_eq m]
  set hb := headerEnc m.header with hhb
  set body := m.data with hbody
  set T := 4 + hb.length + body.length with hT
  show decodeMessage (0xab :: 0xba :: 0x00 :: (be32 T ++ be32 hb.length ++ hb ++ body)) = _
  unfold decodeMessage
  have hr3 : readFull 3 (0xab :: 0xba :: 0x00 :: (be32 T ++ be32 hb.length ++ hb ++ body)) =
      some ([0xab, 0xba, 0x00], be32 T ++ be32 hb.length ++ hb ++ body) := by
    simp [readFull]
  have hcm : checkMagic (([0xab, 0xba, 0x00] : List Nat).take 2) = true := rfl
  simp only [hr3, hcm, if_true]
  have hr4 : readFull 4 (be32 T ++ be32 hb.length ++ hb ++ body) =
      some (be32 T, be32 hb.length ++ hb ++ body) := by
    unfold readFull
    rw [if_pos (by simp [be32])]
    rw [show be32 T ++ be32 hb.length ++ hb ++ body
          = be32 T ++ (be32 hb.length ++ hb ++ body) by simp [List.append_assoc]]
    rw [List.take_left' (be32_length T), List.drop_left' (be32_length T)]
  simp only [hr4]
  have hbv : beVal4 (be32 T) = T := by
    rw [beVal4_be32]
    omega
  rw [hbv]
  rw [if_neg (show ¬(T < 4) by omega)]
  have hlen2 : (be32 hb.length ++ hb ++ body).length = T := by
    simp [be32, hT]
    omega
  have hrT : readFull T (be32 hb.length ++ hb ++ body) =
      some (be32 hb.length ++ hb ++ body, []) := by
    unfold readFull
    rw [if_pos (by omega)]
    rw [← hlen2, List.take_length, List.drop_length]
  simp only [hrT]
  have htk4 : (be32 hb.length ++ hb ++ body).take 4 = be32 hb.length := by
    rw [show be32 hb.length ++ hb ++ body = be32 hb.length ++ (hb ++ body) by
      simp [List.append_assoc]]
    rw [List.take_left' (be32_length hb.length)]
  rw [htk4]
  have hbvH : beVal4 (be32 hb.length) = hb.length := by
    rw [beVal4_be32]
    omega
  rw [hbvH, hlen2]
  rw [if_pos (show hb.length + 4 ≤ T by omega)]
  have hdrop4 : (be32 hb.length ++ hb ++ body).drop 4 = hb ++ body := by
    rw [show be32 hb.length ++ hb ++ body = be32 hb.length ++ (hb ++ body) by
      simp [List.append_assoc]]
    rw [List.drop_left' (be32_length hb.length)]
  rw [hdrop4, List.take_left]
  have hhd : headerDec hb = some m.header := by
    rw [hhb]
    exact headerDec_headerEnc m.header
  simp only [hhd]
  have hdropH : (be32 hb.length ++ hb ++ body).drop (hb.length + 4) = body := by
    rw [show be32 hb.length ++ hb ++ body = (be32 hb.length ++ hb) ++ body by
      simp [List.append_assoc]]
    rw [List.drop_left' (by simp [be32])]
  rw [hdropH]

/-- C1 witness: a concrete message with primitive-valued metadata
round-trips. -/
theorem encode_decode_roundtrip_witness :
    4 + (headerEnc ⟨3, .request, 0, 3, .ok, [65], [66], [],
        [([107], .mint 5), ([108], .mbool true), ([109], .mbytes [7, 8])]⟩).length +
      ([1, 2, 3] : List Nat).length < 2 ^ 32 ∧
    decodeMessage (encodeMessage ⟨⟨3, .request, 0, 3, .ok, [65], [66], [],
        [([107], .mint 5), ([108], .mbool true), ([109], .mbytes [7, 8])]⟩, [1, 2, 3]⟩) =
      .ok ⟨⟨3, .request, 0, 3, .ok, [65], [66], [],
        [([107], .mint 5), ([108], .mbool true), ([109], .mbytes [7, 8])]⟩, [1, 2, 3]⟩ :=
  ⟨by decide, encode_decode_roundtrip _ (by decide)⟩

/-- C3 counterexample: a complete frame with correct magic,
`totalLen = 4` and an embedded `headerLen = 5 > totalLen - 4` makes
`DecodeMessage` panic (Go slice bounds violation on
`data[4 : headerLen+4]`) instead of returning an error. -/
theorem decode_bad_headerLen_panics :
    decodeMessage [0xab, 0xba, 0x00, 0, 0, 0, 4, 0, 0, 0, 5] = .panic := by
  decide

/-- C3 (amended): `DecodeMessage` terminates on every input, returning an
error exactly on magic mismatch, `totalLen < 4`, a short read at any
step, or header-codec rejection — and panicking (rather than returning)
when the embedded `headerLen` exceeds `totalLen - 4`, as the flat
characterization `decodeSpec` states. -/
theorem decode_characterization (s : List Nat) :
    decodeMessage s = decodeSpec s := by
  match s with
  | [] => rfl
  | [a] => rfl
  | [a, b] => rfl
  | a :: b :: c :: rest =>
    have hr3 : readFull 3 (a :: b :: c :: rest) = some ([a, b, c], rest) := by
      simp [readFull]
    have htk2 : (a :: b :: c :: rest).take 2 = [a, b] := rfl
    by_cases hm : a = 0xab ∧ b = 0xba
    · obtain ⟨ha, hb⟩ := hm
      subst ha hb
      have hcm : checkMagic (([0xab, 0xba, c] : List Nat).take 2) = true := rfl
      by_cases h4 : 4 ≤ rest.length
      · have hr4 : readFull 4 rest = some (rest.take 4, rest.drop 4) := by
          simp [readFull, h4]
        have hdrop7 : (0xab :: 0xba :: c :: rest).drop 7 = rest.drop 4 := rfl
        have hdrop3 : (0xab :: 0xba :: c :: rest).drop 3 = rest := rfl
        simp only [decodeMessage, decodeSpec, hr3, hcm, hr4, if_true, htk2, hdrop7, hdrop3]
        rw [if_neg (show ¬((0xab :: 0xba :: c :: rest).length < 3) by simp)]
        rw [if_neg (show ¬¬(([0xab, 0xba] : List Nat) = MAGIC) by simp [MAGIC])]
        rw [if_neg (show ¬((0xab :: 0xba :: c :: rest).length < 7) by
          simp only [List.length_cons]; omega)]
        by_cases hT4 : beVal4 (rest.take 4) < 4
        · rw [if_pos hT4, if_pos hT4]
        · rw [if_neg hT4, if_neg hT4]
          by_cases hTfit : beVal4 (rest.take 4) ≤ (rest.drop 4).length
          · have hTfit2 : beVal4 (rest.take 4) ≤ rest.length - 4 := by
              simpa using hTfit
            have hrT : readFull (beVal4 (rest.take 4)) (rest.drop 4) =
                some ((rest.drop 4).take (beVal4 (rest.take 4)),
                      (rest.drop 4).drop (beVal4 (rest.take 4))) := by
              simp [readFull, hTfit2]
            simp only [hrT]
            rw [if_neg (show ¬((0xab :: 0xba :: c :: rest).length < 7 + beVal4 (rest.take 4)) by
              simp only [List.length_cons]; simp only [List.length_drop] at hTfit; omega)]
            have hdlen : ((rest.drop 4).take (beVal4 (rest.take 4))).length
                = beVal4 (rest.take 4) := by
              simp only [List.length_take, List.length_drop]
              simp only [List.length_drop] at hTfit
              omega
            rw [hdlen]
            by_cases hH : beVal4 (((rest.drop 4).take (beVal4 (rest.take 4))).take 4) + 4
                ≤ beVal4 (rest.take 4)
            · rw [if_pos hH, if_neg (show ¬(beVal4 (rest.take 4) <
                beVal4 (((rest.drop 4).take (beVal4 (rest.take 4))).take 4) + 4) by omega)]
            · rw [if_neg hH, if_pos (show beVal4 (rest.take 4) <
                beVal4 (((rest.drop 4).take (beVal4 (rest.take 4))).take 4) + 4 by omega)]
          · have hrT : readFull (beVal4 (rest.take 4)) (rest.drop 4) = none := by
              simp only [readFull, List.length_drop]
              simp only [List.length_drop] at hTfit
              rw [if_neg (by omega)]
            simp only [hrT]
            rw [if_pos (show (0xab :: 0xba :: c :: rest).length < 7 + beVal4 (rest.take 4) by
              simp only [List.length_cons]; simp only [List.length_drop] at hTfit; omega)]
      · have hr4 : readFull 4 rest = none := by
          simp only [readFull]; rw [if_neg (by omega)]
        simp only [decodeMessage, decodeSpec, hr3, hcm, hr4, if_true, htk2]
        rw [if_neg (show ¬((0xab :: 0xba :: c :: rest).length < 3) by simp)]
        rw [if_neg (show ¬¬(([0xab, 0xba] : List Nat) = MAGIC) by simp [MAGIC])]
        rw [if_pos (show (0xab :: 0xba :: c :: rest).length < 7 by
          simp only [List.length_cons]; omega)]
    · have hcm : checkMagic (([a, b, c] : List Nat).take 2) = false := by
        simp only [checkMagic, List.take_succ_cons, List.take_zero, Bool.and_eq_false_iff,
          decide_eq_false_iff_not]
        by_cases ha : a = 0xab
        · subst ha; right; intro hb; exact hm ⟨rfl, hb⟩
        · left; exact ha
      simp only [decodeMessage, decodeSpec, hr3, hcm, Bool.false_eq_true, if_false, htk2]
      rw [if_neg (show ¬((a :: b :: c :: rest).length < 3) by simp)]
      rw [if_pos (show ¬(([a, b] : List Nat) = MAGIC) by
        simp only [MAGIC, List.cons.injEq, and_true]; intro hc; exact hm ⟨hc.1, hc.2⟩)]

/-! ## Claim theorems: service registration -/

/-- The check chain of `suitableMethods` retains a method exactly when
the claim-side signature predicate `sigOk` holds. -/
theorem suitableMethods_eq_filter (l : List RMethod) :
    suitableMethods l = l.filter sigOk := by
  induction l with
  | nil => rfl
  | cons m rest ih =>
    rw [List.filter_cons]
    unfold suitableMethods
    rw [ih]
    by_cases h1 : m.pkgPath = ""
    · by_cases h2 : m.ins.length = 4
      · by_cases h3 : (m.ins[1]!).rimplementsContext
        · by_cases h4 : isExportedOrBuiltinType m.ins[2]!
          · by_cases h5 : (m.ins[3]!).isPtrKind
            · by_cases h6 : isExportedOrBuiltinType m.ins[3]!
              · by_cases h7 : m.outs.length = 1
                · by_cases h8 : m.outs[0]! = typeOfError
                  · simp [sigOk, h1, h2, h3, h4, h5, h6, h7, h8]
                  · simp [sigOk, h1, h2, h3, h4, h5, h6, h7, h8]
                · simp [sigOk, h1, h2, h3, h4, h5, h6, h7]
              · simp [sigOk, h1, h2, h3, h4, h5, h6]
            · simp [sigOk, h1, h2, h3, h4, h5]
          · simp [sigOk, h1, h2, h3, h4]
        · simp [sigOk, h1, h2, h3]
      · simp [sigOk, h1, h2]
    · simp [sigOk, h1]

/-- C4: `Register` records exactly the methods of the passed value whose
signature is `(Context, Arg, *Reply) → error` with `Arg` and the `Reply`
element type exported or builtin — every other method is skipped; zero
matching methods make registration fail with the map unchanged; a
duplicate service name makes registration fail with the first
registration staying in place.  All of this is the statement that
`register` equals its claim-side characterization `registerSpec`. -/
theorem register_characterization (st : ServerState) (typ : GoType) :
    register st typ = registerSpec st typ := by
  unfold register registerSpec
  rw [suitableMethods_eq_filter]
  by_cases h : (typ.methods.filter sigOk).length = 0
  · have h2 : (typ.methods.filter sigOk).isEmpty = true := by
      rw [List.isEmpty_iff, ← List.length_eq_zero]
      exact h
    rw [if_pos h, if_pos h2]
  · have h2 : ¬((typ.methods.filter sigOk).isEmpty = true) := by
      rw [List.isEmpty_iff, ← List.length_eq_zero]
      exact h
    rw [if_neg h, if_neg h2]

/-! ## Claim theorems: sequence-number correlation -/

/-- Deleting the entries of one key from the pending table leaves the
lookup of every other key unchanged. -/
theorem lookup_filter_ne (pending : List (Nat × PCall)) (s t : Nat) (h : t ≠ s) :
    (pending.filter fun kv => kv.1 ≠ s).lookup t = pending.lookup t := by
  induction pending with
  | nil => rfl
  | cons kv rest ih =>
    rw [List.filter_cons]
    by_cases hk : kv.1 = s
    · rw [if_neg (by simp [hk])]
      rw [ih]
      have : (t == kv.1) = false := by
        simp only [beq_eq_false_iff_ne, ne_eq]
        rw [hk]
        exact h
      match kv with
      | (k, v) =>
        simp only at this
        simp [List.lookup, this]
    · rw [if_pos (by simp [hk])]
      match kv with
      | (k, v) =>
        by_cases ht : t = k
        · subst ht
          simp [List.lookup]
        · have hbeq : (t == k) = false := by
            simp only [beq_eq_false_iff_ne, ne_eq]
            exact ht
          simp only [List.lookup, hbeq]
          simpa using ih

/-- The receive loop delivers every response of a batch to the call the
original pending table holds under the response's sequence number:
deliveries are insensitive to the order and interleaving of the batch. -/
theorem runInput_characterization (resps : List Message) (pending : List (Nat × PCall))
    (hseqs : (resps.map fun r => r.header.seq).Nodup)
    (hhb : ∀ r ∈ resps, r.header.messageType ≠ .heartbeat)
    (hmatch : ∀ r ∈ resps, ∀ c, pending.lookup r.header.seq = some c →
      r.header.serviceName ++ [46] ++ r.header.methodName = c.serviceMethod) :
    runInput pending resps =
      resps.filterMap fun r => (pending.lookup r.header.seq).map fun c => (c, r) := by
  induction resps generalizing pending with
  | nil => rfl
  | cons r rs ih =>
    have hseqs' : (rs.map fun x => x.header.seq).Nodup := by
      simp only [List.map_cons, List.nodup_cons] at hseqs
      exact hseqs.2
    have hnotin : ∀ x ∈ rs, x.header.seq ≠ r.header.seq := by
      intro x hx
      simp only [List.map_cons, List.nodup_cons, List.mem_map] at hseqs
      intro he
      exact hseqs.1 ⟨x, hx, he⟩
    rw [List.filterMap_cons]
    cases hl : pending.lookup r.header.seq with
    | none =>
      have hstep : inputStep pending r = (pending, .dropped) := by
        simp [inputStep, hl]
      simp only [runInput, hstep]
      rw [ih pending hseqs' (fun x hx => hhb x (by simp [hx]))
        (fun x hx c hc => hmatch x (by simp [hx]) c hc)]
      simp
    | some c =>
      have hname : r.header.serviceName ++ [46] ++ r.header.methodName = c.serviceMethod :=
        hmatch r (by simp) c hl
      have hstep : inputStep pending r =
          (pending.filter (fun kv => kv.1 ≠ r.header.seq), .delivered c) := by
        simp only [inputStep, hl]
        rw [if_pos (hhb r (by simp)), if_neg (by simp [hname])]
      simp only [runInput, hstep]
      have hlk : ∀ x ∈ rs,
          (pending.filter fun kv => kv.1 ≠ r.header.seq).lookup x.header.seq =
            pending.lookup x.header.seq := by
        intro x hx
        exact lookup_filter_ne pending r.header.seq x.header.seq (hnotin x hx)
      rw [ih (pending.filter fun kv => kv.1 ≠ r.header.seq) hseqs'
        (fun x hx => hhb x (by simp [hx]))
        (fun x hx cc hc => hmatch x (by simp [hx]) cc (by rw [← hlk x hx]; exact hc))]
      rw [List.filterMap_congr (fun x hx => by rw [hlk x hx])]
      simp

/-- C5: (server half) `process`, run on the response template
`serveTransport` builds from a decoded request, returns a response whose
`Seq` equals the Seq of the request, whatever the dispatch environment
does; (client half) the receive loop of `simpleClient` delivers every
decoded non-heartbeat response of a batch to exactly the pending `Call`
whose `Seq` equals the Seq of the response, in whatever order the batch
arrives. -/
theorem seq_correlation :
    (∀ (env : DispatchEnv) (req : Message),
      (process env req (responseTemplate req)).header.seq = req.header.seq) ∧
    (∀ (resps : List Message) (pending : List (Nat × PCall)),
      (resps.map fun r => r.header.seq).Nodup →
      (∀ r ∈ resps, r.header.messageType ≠ .heartbeat) →
      (∀ r ∈ resps, ∀ c, pending.lookup r.header.seq = some c →
        r.header.serviceName ++ [46] ++ r.header.methodName = c.serviceMethod) →
      runInput pending resps =
        resps.filterMap fun r => (pending.lookup r.header.seq).map fun c => (c, r)) := by
  constructor
  · intro env req
    unfold process responseTemplate errorResponse
    by_cases hh : req.header.messageType = .heartbeat
    · rw [if_pos hh]
    · rw [if_neg hh]
      cases env.lookupService req.header.serviceName with
      | none => rfl
      | some u =>
        cases env.lookupMethod req.header.serviceName req.header.methodName with
        | none => rfl
        | some u2 =>
          cases env.decodeArg req.header.serializeType req.data with
          | none => rfl
          | some u3 =>
            cases env.invoke req.header.serviceName req.header.methodName req.data with
            | error e => rfl
            | ok u4 =>
              cases env.encodeReply req.header.serviceName req.header.methodName req.data with
              | error e => rfl
              | ok rd => rfl
  · exact fun resps pending h1 h2 h3 => runInput_characterization resps pending h1 h2 h3

/-- C5 witness: a concrete two-call pending table receives two responses
in swapped order, and each call gets exactly the response carrying its
own sequence number. -/
theorem seq_correlation_witness :
    (process ⟨fun _ => none, fun _ _ => none, fun _ _ => none,
        fun _ _ _ => .ok (), fun _ _ _ => .ok []⟩
      ⟨⟨9, .request, 0, 3, .ok, [65], [66], [], []⟩, [1]⟩
      (responseTemplate ⟨⟨9, .request, 0, 3, .ok, [65], [66], [], []⟩, [1]⟩)).header.seq =
      (⟨⟨9, .request, 0, 3, .ok, [65], [66], [], []⟩, [1]⟩ : Message).header.seq ∧
    runInput [(1, ⟨[65, 46, 66], 100⟩), (2, ⟨[65, 46, 67], 200⟩)]
        [⟨⟨2, .response, 0, 3, .ok, [65], [67], [], []⟩, []⟩,
         ⟨⟨1, .response, 0, 3, .ok, [65], [66], [], []⟩, []⟩] =
      [(⟨[65, 46, 67], 200⟩, ⟨⟨2, .response, 0, 3, .ok, [65], [67], [], []⟩, []⟩),
       (⟨[65, 46, 66], 100⟩, ⟨⟨1, .response, 0, 3, .ok, [65], [66], [], []⟩, []⟩)] := by
  refine ⟨seq_correlation.1 _ _, ?_⟩
  rw [seq_correlation.2 _ _ (by decide) (by decide) (by decide)]
  decide

/-! ## Claim theorems: governance-client fail modes -/

/-- The `FailRetry` loop started without a client and with a non-nil
selection error keeps that error: every iteration re-dials, the dial
yields no client, and `err` is never reassigned. -/
theorem failRetryLoop_no_client (env : SGEnv) (e : RpcErr)
    (hdial : ∀ k, (env.dial k).1 = none) :
    ∀ (fuel : Nat) (ce : Option RpcErr) (a d : Nat),
      failRetryLoop env fuel none (some e) ce a d = .ret (some e) a := by
  intro fuel
  induction fuel with
  | zero => intro ce a d; simp [failRetryLoop]
  | succ f ih =>
    intro ce a d
    show failRetryLoop env f (env.dial d).1 (some e) (env.dial d).2 a (d + 1) =
      .ret (some e) a
    rw [hdial d]
    exact ih _ _ _

/-- The `FailOver` loop started without a client and with a non-nil
selection error keeps that error when every re-selection also yields no
client. -/
theorem failOverLoop_no_client (env : SGEnv) (e : RpcErr)
    (hsel : ∀ k, (env.selectClient k).1 = none) :
    ∀ (fuel : Nat) (ce : Option RpcErr) (a s : Nat),
      failOverLoop env fuel none (some e) ce a s = .ret (some e) a := by
  intro fuel
  induction fuel with
  | zero => intro ce a s; simp [failOverLoop]
  | succ f ih =>
    intro ce a s
    show failOverLoop env f (env.selectClient s).1 (some e) (env.selectClient s).2 a (s + 1) =
      .ret (some e) a
    rw [hsel s]
    exact ih _ _ _

/-- C7 counterexample: with an empty provider list, `Call` under
`FailSafe` does not return the empty-provider-list error — it reaches
the default branch with a nil `RPCClient` and panics. -/
theorem failSafe_empty_providers_panics :
    sgCall emptyEnvExample .failSafe 3 = .npePanic 0 ∧
    (emptyEnvExample.selectClient 0).2 = some .emptyProviderList := by
  constructor
  · rfl
  · rfl

/-- C7 (amended): when the selector yields the empty-provider-list error
on every selection and the zero-value provider cannot be dialled, `Call`
returns that error having made no call attempt under `FailFast`,
`FailRetry` and `FailOver`; under `FailSafe` it invokes `Call` on a nil
client and panics. -/
theorem empty_provider_error_surfaces (env : SGEnv) (retries : Nat)
    (hsel : ∀ k, env.selectClient k = (none, some .emptyProviderList))
    (hdial : ∀ k, (env.dial k).1 = none) :
    sgCall env .failFast retries = .ret (some .emptyProviderList) 0 ∧
    sgCall env .failRetry retries = .ret (some .emptyProviderList) 0 ∧
    sgCall env .failOver retries = .ret (some .emptyProviderList) 0 ∧
    sgCall env .failSafe retries = .npePanic 0 := by
  have hsel1 : ∀ k, (env.selectClient k).1 = none := by
    intro k; rw [hsel k]
  refine ⟨?_, ?_, ?_, ?_⟩
  · simp only [sgCall, hsel 0]
    rw [if_pos (by simp)]
  · simp only [sgCall, hsel 0]
    rw [if_neg (by simp)]
    exact failRetryLoop_no_client env _ hdial retries none 0 0
  · simp only [sgCall, hsel 0]
    rw [if_neg (by simp)]
    exact failOverLoop_no_client env _ hsel1 retries none 0 1
  · simp only [sgCall, hsel 0]
    rw [if_neg (by simp)]

/-- C7 witness: the amended behaviour evaluated at the concrete
empty-provider environment with three retries. -/
theorem empty_provider_error_surfaces_witness :
    sgCall emptyEnvExample .failFast 3 = .ret (some .emptyProviderList) 0 ∧
    sgCall emptyEnvExample .failRetry 3 = .ret (some .emptyProviderList) 0 ∧
    sgCall emptyEnvExample .failOver 3 = .ret (some .emptyProviderList) 0 ∧
    sgCall emptyEnvExample .failSafe 3 = .npePanic 0 :=
  empty_provider_error_surfaces emptyEnvExample 3 (fun _ => rfl) (fun _ => rfl)

/-- C6 counterexample: under `FailRetry` with retries = 3, a first call
attempt that fails on the live pooled client is returned immediately —
exactly one attempt is made — although the second attempt would have
succeeded, so `Call` does not return success. -/
theorem failRetry_returns_first_error :
    sgCall retryEnvExample .failRetry 3 = .ret (some (.transport [120])) 1 ∧
    retryEnvExample.callResult 1 = none := by
  constructor
  · rfl
  · rfl

/-- C6 (amended): under `FailRetry`, when the initial selection yields a
live pooled client and the retry count is at least one, `Call` makes
exactly one call attempt against that client and returns its result
immediately, error or not; the retry iterations re-dial only when the
pooled client is absent. -/
theorem failRetry_single_attempt (env : SGEnv) (retries : Nat) (c : Nat)
    (hc : (env.selectClient 0).1 = some c) (hr : 1 ≤ retries) :
    sgCall env .failRetry retries = .ret (env.callResult 0) 1 := by
  obtain ⟨f, rfl⟩ : ∃ f, retries = f + 1 := ⟨retries - 1, by omega⟩
  simp only [sgCall]
  rw [if_neg (by simp)]
  show failRetryLoop env (f + 1) (env.selectClient 0).1 (env.selectClient 0).2 none 0 0 = _
  rw [hc]
  simp [failRetryLoop]

/-- C6 witness: the amended behaviour evaluated at the concrete
environment whose first attempt fails. -/
theorem failRetry_single_attempt_witness :
    (retryEnvExample.selectClient 0).1 = some 0 ∧ 1 ≤ 3 ∧
    sgCall retryEnvExample .failRetry 3 = .ret (retryEnvExample.callResult 0) 1 :=
  ⟨rfl, by decide, failRetry_single_attempt retryEnvExample 3 0 rfl (by decide)⟩

/-! ## Claim theorems: heartbeat short-circuit -/

/-- C8 counterexample: `process` on a heartbeat request only flips the
message type of the cloned response; status and body are inherited from
the request, so a heartbeat request carrying a non-empty body and error
status is echoed back with that body and status instead of an empty OK
response. -/
theorem heartbeat_echoes_request :
    (process ⟨fun _ => none, fun _ _ => none, fun _ _ => none,
        fun _ _ _ => .ok (), fun _ _ _ => .ok []⟩
      ⟨⟨1, .heartbeat, 0, 3, .statusError, [], [], [], []⟩, [9]⟩
      (responseTemplate ⟨⟨1, .heartbeat, 0, 3, .statusError, [], [], [], []⟩, [9]⟩)).data
      = [9] ∧
    (process ⟨fun _ => none, fun _ _ => none, fun _ _ => none,
        fun _ _ _ => .ok (), fun _ _ _ => .ok []⟩
      ⟨⟨1, .heartbeat, 0, 3, .statusError, [], [], [], []⟩, [9]⟩
      (responseTemplate ⟨⟨1, .heartbeat, 0, 3, .statusError, [], [], [], []⟩, [9]⟩)).header.statusCode
      = .statusError := by
  constructor
  · rfl
  · rfl

/-- C8 (amended): for every heartbeat request, `process` returns the
passed response with its message type set to `Response`, without
consulting the service map or any other part of the dispatch
environment; status code and body are whatever the response template
inherited from the request (OK and empty exactly when the request
carried them). -/
theorem process_heartbeat_shortcircuit (env env2 : DispatchEnv) (req resp : Message)
    (hh : req.header.messageType = .heartbeat) :
    process env req resp =
      { resp with header := { resp.header with messageType := .response } } ∧
    process env req resp = process env2 req resp := by
  constructor
  · unfold process
    rw [if_pos hh]
  · unfold process
    rw [if_pos hh, if_pos hh]

/-- C8 witness: the short-circuit evaluated on a concrete heartbeat
request and two different environments. -/
theorem process_heartbeat_shortcircuit_witness :
    process ⟨fun _ => none, fun _ _ => none, fun _ _ => none,
        fun _ _ _ => .ok (), fun _ _ _ => .ok []⟩
      ⟨⟨7, .heartbeat, 0, 3, .ok, [], [], [], []⟩, []⟩
      (responseTemplate ⟨⟨7, .heartbeat, 0, 3, .ok, [], [], [], []⟩, []⟩) =
      { responseTemplate ⟨⟨7, .heartbeat, 0, 3, .ok, [], [], [], []⟩, []⟩ with
          header := { (responseTemplate ⟨⟨7, .heartbeat, 0, 3, .ok, [], [], [], []⟩, []⟩).header
            with messageType := .response } } :=
  (process_heartbeat_shortcircuit
    ⟨fun _ => none, fun _ _ => none, fun _ _ => none,
      fun _ _ _ => .ok (), fun _ _ _ => .ok []⟩
    ⟨fun _ => some (), fun _ _ => some (), fun _ _ => some (),
      fun _ _ _ => .error [], fun _ _ _ => .error []⟩
    ⟨⟨7, .heartbeat, 0, 3, .ok, [], [], [], []⟩, []⟩
    (responseTemplate ⟨⟨7, .heartbeat, 0, 3, .ok, [], [], [], []⟩, []⟩) rfl).1

/-! ## Claim theorems: graceful shutdown -/

/-- C9: the spin loop of `close` never exits while the in-flight counter
stays positive — the `break` inside `select` leaves only the `select`,
so `ShutDownWait` is merely the ticker period, not a maximum wait, and
`Close` does not return after it elapses. -/
theorem close_loop_never_exits (obs : Nat → Int) (h : ∀ k, 0 < obs k) :
    ∀ (i fuel : Nat), closeLoopExits obs i fuel = false := by
  intro i fuel
  induction fuel generalizing i with
  | zero => rfl
  | succ f ih =>
    unfold closeLoopExits
    rw [if_neg (by have := h i; omega)]
    exact ih (i + 1)

/-- C9 witness: with the counter pinned at one, the loop has not exited
after nine ticks of the `ShutDownWait` ticker. -/
theorem close_loop_never_exits_witness :
    closeLoopExits (fun _ => 1) 0 9 = false :=
  close_loop_never_exits (fun _ => 1) (fun _ => Int.one_pos) 0 9

/-! ## Claim theorems: clone aliasing -/

/-- C10: `Message.Clone` shares the header object and the data slice of
the original rather than copying them, and therefore each header-field
mutation performed on the response built by `serveTransport` and
`errorResponse` (message type, error string, status code) is observable
through the original request message. -/
theorem clone_shares_header (heap : Nat → Header) (req : HMessage) (err : List Nat) :
    (hclone req).headerRef = req.headerRef ∧
    (hclone req).data = req.data ∧
    readHeader (responseMutations heap (hclone req) err) req =
      { readHeader heap req with
          messageType := .response, errorMsg := err, statusCode := .statusError } := by
  refine ⟨rfl, rfl, ?_⟩
  unfold responseMutations writeHeaderField readHeader hclone
  simp

end LincxRpc
